import Mathlib

/-!
Verification of the pulseaudio-dlna startup and radio-launcher logic.

This file shallowly embeds the two source files of the repository:

* `pulseaudio_dlna/__main__.py` — the `PulseAudioDLNA` class with its
  `startup` and `shutdown` methods.  The startup sequence is modelled as a
  function from the command-line options and the environment (host
  resolution, encoder table, socket-bind success) to a trace of events plus
  an outcome, mirroring the Python control flow branch by branch, including
  every `sys.exit(1)` site and the `AttributeError` raised at
  `multiprocessing.Process(target=self.pulse.run)` when `self.pulse` is
  still `None`.

* `scripts/radio.py` — the `RadioLauncher` class.  Network effects
  (`requests.get`, `device.play`, `device.stop`) are passed in as function
  parameters; Python string operations (`split`, `lower`, `startswith`,
  `endswith`) are re-implemented character by character over `List Char`
  with ASCII semantics, which is what the URLs and playlist bodies involved
  use.

Parts of the package that are not in the repository snapshot (the
`encoders`, `codecs` and `renderers` modules) are modelled from the spec;
each such definition carries a doc comment starting with
`Modelled from the spec:`.
-/

set_option autoImplicit false

/-- Python truthiness of an optional string option (`if options[...]:`):
`None` and the empty string are falsy, every other string is truthy. -/
def truthy : Option String → Bool
  | none => false
  | some s => !(s == "")

/-! ## Character-level string primitives (Python `str` semantics, ASCII) -/

/-- `startsWithChars hay needle` — does `hay` start with `needle`
(Python `str.startswith` on the character lists). -/
def startsWithChars : List Char → List Char → Bool
  | _, [] => true
  | [], _ :: _ => false
  | a :: as, p :: ps => a = p && startsWithChars as ps

/-- `containsChars hay needle` — does `needle` occur contiguously in `hay`
(Python `needle in hay`). -/
def containsChars : List Char → List Char → Bool
  | [], needle => needle.isEmpty
  | h :: hs, needle => startsWithChars (h :: hs) needle || containsChars hs needle

/-- Python `hay.startswith(needle)`. -/
def strStartsWith (hay needle : String) : Bool :=
  startsWithChars hay.data needle.data

/-- Python `hay.endswith(needle)`. -/
def strEndsWith (hay needle : String) : Bool :=
  startsWithChars hay.data.reverse needle.data.reverse

/-- Python `needle in hay` for strings. -/
def strContains (hay needle : String) : Bool :=
  containsChars hay.data needle.data

/-- Python `s.lower()` (ASCII letters). -/
def lowerStr (s : String) : String :=
  String.mk (s.data.map Char.toLower)

/-- Python `s.split(sep)` for a single-character separator, on character
lists: keeps empty fields, `[] ↦ [[]]`. -/
def splitChars (sep : Char) : List Char → List (List Char)
  | [] => [[]]
  | c :: cs =>
    let rest := splitChars sep cs
    if c = sep then [] :: rest
    else
      match rest with
      | [] => [[c]]
      | r :: rs => (c :: r) :: rs

/-- Python `s.split(sep)` for a single-character separator. -/
def splitStr (s : String) (sep : Char) : List String :=
  (splitChars sep s.data).map (fun cs => String.mk cs)

/-! ## Data model of the startup sequence (`pulseaudio_dlna/__main__.py`) -/

/-- An audio encoder as the startup code sees it: its command-line suffix
(`mp3`, `ogg`, …) and its declared list of supported bit rates.

Modelled from the spec: the `encoders` module is not under `src/`; the spec
describes an encoder as carrying an identity (suffix, mime type) and a
"bit-rate range [min,max] or empty (fixed/unsupported)".  Only the suffix
and the bit-rate list are relevant to `__main__.py`. -/
structure Encoder where
  suffix : String
  bitRates : List Nat
  deriving Repr, DecidableEq

/-- The docopt command-line options consumed by `PulseAudioDLNA.startup`.
String-valued options are `Option String` (absent = `None`); `--port` has a
docopt default of 8080 and is converted with `int(...)`, and `--bit-rate`
is likewise modelled already converted to a number. -/
structure Options where
  host : Option String
  port : Nat
  encoder : Option String
  bitRate : Option Nat
  filterDevice : Option String
  rendererUrls : Option String
  debug : Bool
  deriving Repr, DecidableEq

/-- The environment `startup` runs in: the result of
`pulseaudio_dlna.utils.network.default_ipv4()`, the module-level
`pulseaudio_dlna.common.supported_encoders` table, and whether
`ThreadedStreamServer(host, port, ...)` binds without raising
`socket.error`. -/
structure Env where
  defaultIpv4 : Option String
  supportedEncoders : List Encoder
  bindOk : Bool
  deriving Repr, DecidableEq

/-- Observable events of the startup sequence, in source order. -/
inductive Event where
  | logNoHost
  | logUsingHost (host : String) (port : Nat)
  | logUnknownEncoder
  | logInvalidBitRate
  | logLoadedEncoders
  | validateEncoder (e : Encoder)
  | printEncoder (e : Encoder)
  | logBindFailure (port : Nat)
  | createStreamServer (host : String) (port : Nat)
  | createPulseWatcher
  | createRendererHolder (deviceFilter : Option (List String))
  | createSSDPListener
  | startPulseProcess
  | startServerProcess
  | startListenerProcess
  | addRenderersByUrl (locations : List String)
  | discoverSearch
  | logDiscoveryComplete
  | registerSignalHandlers
  deriving Repr, DecidableEq

/-- How the startup sequence ends. -/
inductive Outcome where
  /-- `sys.exit(code)` was called. -/
  | exited (code : Nat)
  /-- An uncaught `AttributeError` escaped (from `self.pulse.run` with
  `self.pulse = None`). -/
  | attributeError
  /-- The sequence reached the `join()` calls and keeps running. -/
  | running
  deriving Repr, DecidableEq

/-- Result of running `PulseAudioDLNA.startup`: the event trace, the
outcome, and the values of the attributes `self.pulse`,
`self.server_process` and `self.stream_server` when the sequence ends
(`__init__` sets the first two to `None`; a `some ()` records that the
attribute holds a live object). -/
structure StartupResult where
  events : List Event
  outcome : Outcome
  selfPulse : Option Unit
  selfServerProcess : Option Unit
  selfStreamServer : Option Unit
  deriving Repr, DecidableEq

/-- Lines 96–104: `host = options['--host'] or default_ipv4()`. -/
def resolveHost (opts : Options) (env : Env) : Option String :=
  if truthy opts.host then opts.host else env.defaultIpv4

/-- The `for encoder in supported_encoders: if encoder.suffix == ...` scan
of lines 117–118 (first match wins, as with the `break`). -/
def findEncoder (suffix : String) : List Encoder → Option Encoder
  | [] => none
  | e :: es => if e.suffix == suffix then some e else findEncoder suffix es

/-- Lines 117–120: on a suffix match the global encoder list is replaced by
the singleton of the first matching encoder; otherwise it is left as is. -/
def reduceEncoders (encoders : List Encoder) (suffix : String) : List Encoder :=
  match findEncoder suffix encoders with
  | some e => [e]
  | none => encoders

/-- Lines 116–124: the whole `--encoder` block.  `none` means the
`len(...) != 1` check failed and `sys.exit(1)` runs. -/
def encoderPhase (opts : Options) (encoders : List Encoder) : Option (List Encoder) :=
  if truthy opts.encoder then
    let reduced := reduceEncoders encoders (opts.encoder.getD "")
    if reduced.length != 1 then none else some reduced
  else
    some encoders

/-- Modelled from the spec: `Encoder.setBitRate(value)` fails with
`UnsupportedBitRate` if the value is outside the encoder's declared range
or the encoder declares no configurable bit rate (the `encoders` module
itself is not under `src/`; `__main__.py` only catches its
`UnsupportedBitrateException`). -/
def setBitRateOk (e : Encoder) (rate : Nat) : Bool :=
  e.bitRates.contains rate

/-- Lines 127–143: the `for encoder in supported_encoders` loop assigning
`encoder.bit_rate`; returns the first encoder whose assignment raises
`UnsupportedBitrateException`, if any (the loop exits the process there). -/
def firstBitRateFailure (rate : Nat) : List Encoder → Option Encoder
  | [] => none
  | e :: es => if setBitRateOk e rate then firstBitRateFailure rate es else some e

/-- Lines 126–143: the whole `--bit-rate` block; `true` means startup
survives it. -/
def bitRatePhase (opts : Options) (encoders : List Encoder) : Bool :=
  match opts.bitRate with
  | none => true
  | some rate => (firstBitRateFailure rate encoders).isNone

/-- Lines 146–148: `for encoder in supported_encoders: encoder.validate();
print(encoder)`. -/
def validateEvents : List Encoder → List Event
  | [] => []
  | e :: es => Event.validateEncoder e :: Event.printEncoder e :: validateEvents es

/-- Lines 167–169: `device_filter = options['--filter-device'].split(',')`
when the option is truthy, `None` otherwise. -/
def deviceFilterOf (opts : Options) : Option (List String) :=
  if truthy opts.filterDevice then some (splitStr (opts.filterDevice.getD "") ',') else none

/-- `PulseAudioDLNA.startup` (lines 81–195), branch by branch:

* lines 96–104: host resolution, `sys.exit(1)` when none can be found;
* lines 116–124: `--encoder` reduction, `sys.exit(1)` on the length check;
* lines 126–143: `--bit-rate` assignment, `sys.exit(1)` on the first
  `UnsupportedBitrateException`;
* lines 145–148: validation of every remaining encoder;
* lines 154–162: stream-server construction, `sys.exit(1)` on
  `socket.error`;
* lines 164–172: `PulseWatcher`, `RendererHolder` (with the device filter)
  and `ThreadedSSDPListener` construction — all bound to local variables or
  `self.stream_server`; `self.pulse` and `self.server_process` are never
  assigned;
* line 174: `multiprocessing.Process(target=self.pulse.run)` evaluates
  `self.pulse.run` with `self.pulse = None` and raises `AttributeError`,
  so lines 175–195 are unreachable. -/
def startup (opts : Options) (env : Env) : StartupResult :=
  match resolveHost opts env with
  | none =>
    { events := [Event.logNoHost], outcome := Outcome.exited 1,
      selfPulse := none, selfServerProcess := none, selfStreamServer := none }
  | some host =>
    match encoderPhase opts env.supportedEncoders with
    | none =>
      { events := [Event.logUsingHost host opts.port, Event.logUnknownEncoder],
        outcome := Outcome.exited 1,
        selfPulse := none, selfServerProcess := none, selfStreamServer := none }
    | some encoders =>
      if bitRatePhase opts encoders then
        if env.bindOk then
          { events := [Event.logUsingHost host opts.port, Event.logLoadedEncoders]
              ++ validateEvents encoders
              ++ [Event.createStreamServer host opts.port, Event.createPulseWatcher,
                  Event.createRendererHolder (deviceFilterOf opts), Event.createSSDPListener],
            outcome := Outcome.attributeError,
            selfPulse := none, selfServerProcess := none, selfStreamServer := some () }
        else
          { events := [Event.logUsingHost host opts.port, Event.logLoadedEncoders]
              ++ validateEvents encoders ++ [Event.logBindFailure opts.port],
            outcome := Outcome.exited 1,
            selfPulse := none, selfServerProcess := none, selfStreamServer := none }
      else
        { events := [Event.logUsingHost host opts.port, Event.logInvalidBitRate],
          outcome := Outcome.exited 1,
          selfPulse := none, selfServerProcess := none, selfStreamServer := none }

/-- Observable actions of `PulseAudioDLNA.shutdown` (lines 73–79). -/
inductive ShutdownEvent where
  | printShuttingDown
  | pulseCleanup
  | serverClose
  | sysExit (code : Nat)
  deriving Repr, DecidableEq

/-- `PulseAudioDLNA.shutdown` (lines 73–79): print, then
`self.pulse.cleanup()` only when `self.pulse is not None`, then
`self.server_process.server_close()` only when `self.server_process is not
None`, then `sys.exit(1)`. -/
def shutdown (selfPulse selfServerProcess : Option Unit) : List ShutdownEvent :=
  [ShutdownEvent.printShuttingDown]
    ++ (if selfPulse.isSome then [ShutdownEvent.pulseCleanup] else [])
    ++ (if selfServerProcess.isSome then [ShutdownEvent.serverClose] else [])
    ++ [ShutdownEvent.sysExit 1]

/-! ## Device-filter acceptance (`RendererHolder`) -/

/-- Modelled from the spec: the `renderers` module is not under `src/`.
"A device is accepted only if no active name filter is configured, or the
device's display name matches at least one of the filter's case-sensitive
substrings."  `deviceFilter` is the already-split list that `__main__.py`
passes to `RendererHolder` (lines 167–170). -/
def nameMatchesFilter (deviceFilter : Option (List String)) (name : String) : Bool :=
  match deviceFilter with
  | none => true
  | some subs => subs.any (fun sub => strContains name sub)

/-- A device is accepted at the `__main__.py` level: the `--filter-device`
option is split on commas (lines 167–169) and the resulting filter applied
to the device's display name. -/
def deviceAccepted (opts : Options) (name : String) : Bool :=
  nameMatchesFilter (deviceFilterOf opts) name

/-- Modelled from the spec: `RendererHolder` registers a discovered device
only if it passes the name filter; "rejected devices are not registered and
generate no Bridges" (the `renderers` module is not under `src/`). -/
def registerDiscovered (deviceFilter : Option (List String)) (names : List String) : List String :=
  names.filter (fun name => nameMatchesFilter deviceFilter name)

/-! ## The radio launcher (`scripts/radio.py`) -/

/-- A codec as `RadioLauncher._get_codec` sees it.

Modelled from the spec: the `codecs` module is not under `src/`; the spec's
Capability Registry gives each encoding an identity containing its suffix,
which is all `_get_codec` reads. -/
structure Codec where
  suffix : String
  deriving Repr, DecidableEq

/-- Modelled from the spec: `pulseaudio_dlna.codecs.Mp3Codec()`, the MP3
codec with suffix `mp3` (the `codecs` module is not under `src/`). -/
def mp3Codec : Codec := { suffix := "mp3" }

/-- A device as the radio launcher sees it (`device.name`,
`device.flavour`, `device.label`). -/
structure RDevice where
  name : String
  flavour : String
  label : String
  deriving Repr, DecidableEq

/-- The log lines `RadioLauncher.stop` / `RadioLauncher.play` emit. -/
inductive RLog where
  | instructedToStop (label : String)
  | failedToStop (label : String) (code : Int)
  | instructedToPlay (label : String)
  | failedToPlay (label : String) (code : Int)
  deriving Repr, DecidableEq

namespace RadioLauncher

/-- `RadioLauncher._get_device` (lines 82–90): first device matching the
name (and the flavour, when the flavour argument is truthy). -/
def getDevice (name : String) (flavour : Option String) : List RDevice → Option RDevice
  | [] => none
  | d :: ds =>
    if truthy flavour then
      if d.name = name ∧ some d.flavour = flavour then some d
      else getDevice name flavour ds
    else
      if d.name = name then some d
      else getDevice name flavour ds

/-- `RadioLauncher._get_codec` (lines 92–97) as Python executes it on the
value flowing in from `play`, which may be `None`: the loop body evaluates
`url.endswith(codec.suffix)`, which raises `AttributeError` when `url` is
`None` and the codec table is non-empty; when no codec's suffix matches,
`Mp3Codec()` is returned.  The codec table is passed as a list (the
iteration order of the `CODECS` dict is arbitrary). -/
def getCodecLoop (url : Option String) : List Codec → Except Unit Codec
  | [] => Except.ok mp3Codec
  | c :: cs =>
    match url with
    | none => Except.error ()
    | some u => if strEndsWith u c.suffix then Except.ok c else getCodecLoop url cs

/-- `RadioLauncher._get_playlist_url` (lines 99–104): fetch the URL and
return the first line of the body that starts (case-insensitively) with
`http://`, or `None`.  The network fetch is the `fetch` parameter. -/
def getPlaylistUrl (fetch : String → String) (url : String) : Option String :=
  (splitStr (fetch url) '\n').find? (fun line => strStartsWith (lowerStr line) "http://")

/-- Lines 67–68 of `RadioLauncher.play`: the value bound to `url` when the
codec lookup is reached — the playlist resolution result (possibly `None`)
when the URL ends in `.m3u` case-insensitively, the URL itself otherwise. -/
def playCodecArg (fetch : String → String) (url : String) : Option String :=
  if strEndsWith (lowerStr url) ".m3u" then getPlaylistUrl fetch url else some url

/-- `RadioLauncher.stop` (lines 53–64): look the device up, issue `stop`
(its protocol result code is the `stopCode` parameter) and log success
exactly on result code 200. -/
def stop (devices : List RDevice) (stopCode : RDevice → Int) (name : String)
    (flavour : Option String) : List RLog :=
  match getDevice name flavour devices with
  | none => []
  | some device =>
    if stopCode device = 200 then [RLog.instructedToStop device.label]
    else [RLog.failedToStop device.label (stopCode device)]

/-- `RadioLauncher.play` (lines 66–80): resolve `.m3u` playlists, look the
codec up (`Except.error ()` is the uncaught `AttributeError` when `None`
reaches `_get_codec`), look the device up, issue `play` (result code given
by the `playCode` parameter) and log success exactly on result code 200. -/
def play (devices : List RDevice) (codecs : List Codec) (fetch : String → String)
    (playCode : RDevice → Option String → Codec → Int) (url : String) (name : String)
    (flavour : Option String) : Except Unit (List RLog) :=
  let url2 := playCodecArg fetch url
  match getCodecLoop url2 codecs with
  | Except.error e => Except.error e
  | Except.ok codec =>
    match getDevice name flavour devices with
    | none => Except.ok []
    | some device =>
      if playCode device url2 codec = 200 then Except.ok [RLog.instructedToPlay device.label]
      else Except.ok [RLog.failedToPlay device.label (playCode device url2 codec)]

end RadioLauncher

/-! ## Helper definitions and lemmas -/

/-- Number of `validateEncoder e` events in a trace. -/
def countValidate (e : Encoder) : List Event → Nat
  | [] => 0
  | Event.validateEncoder f :: rest => (if f = e then 1 else 0) + countValidate e rest
  | _ :: rest => countValidate e rest

/-- Number of occurrences of an encoder in a list. -/
def countEncoder (e : Encoder) : List Encoder → Nat
  | [] => 0
  | f :: rest => (if f = e then 1 else 0) + countEncoder e rest

/-- Events that belong to stream serving or bridge construction: creating
or running the stream server, registering renderers (which creates
bridges), or running discovery (which feeds registration). -/
def streamOrBridgeActivity : Event → Bool
  | Event.createStreamServer _ _ => true
  | Event.startServerProcess => true
  | Event.startListenerProcess => true
  | Event.addRenderersByUrl _ => true
  | Event.discoverSearch => true
  | _ => false

/-- Events that start one of the components constructed after the
stream-server bind in `startup` (lines 164–187). -/
def startsComponentAfterBind : Event → Bool
  | Event.createStreamServer _ _ => false
  | Event.createPulseWatcher => true
  | Event.createRendererHolder _ => true
  | Event.createSSDPListener => true
  | Event.startPulseProcess => true
  | Event.startServerProcess => true
  | Event.startListenerProcess => true
  | Event.addRenderersByUrl _ => true
  | Event.discoverSearch => true
  | _ => false

theorem validateEvents_mem {ev : Event} {l : List Encoder} (h : ev ∈ validateEvents l) :
    ∃ e, ev = Event.validateEncoder e ∨ ev = Event.printEncoder e := by
  induction l with
  | nil => simp [validateEvents] at h
  | cons e es ih =>
    simp only [validateEvents, List.mem_cons] at h
    rcases h with h | h | h
    · exact ⟨e, Or.inl h⟩
    · exact ⟨e, Or.inr h⟩
    · exact ih h

theorem countValidate_validateEvents (e : Encoder) (l : List Encoder) :
    countValidate e (validateEvents l) = countEncoder e l := by
  induction l with
  | nil => rfl
  | cons f fs ih => simp [validateEvents, countValidate, countEncoder, ih]

theorem countValidate_append (e : Encoder) (l₁ l₂ : List Event) :
    countValidate e (l₁ ++ l₂) = countValidate e l₁ + countValidate e l₂ := by
  induction l₁ with
  | nil => simp [countValidate]
  | cons ev rest ih =>
    cases ev <;> simp [countValidate, ih, Nat.add_assoc]

theorem countValidate_no_validate {l : List Event}
    (h : ∀ f : Encoder, Event.validateEncoder f ∉ l) (e : Encoder) :
    countValidate e l = 0 := by
  induction l with
  | nil => rfl
  | cons ev rest ih =>
    have hrest : ∀ f : Encoder, Event.validateEncoder f ∉ rest := by
      intro f hf
      exact h f (List.mem_cons_of_mem _ hf)
    cases ev with
    | validateEncoder f => exact absurd (List.mem_cons_self _ _) (h f)
    | _ => exact ih hrest

theorem countEncoder_eq_zero_of_not_mem {e : Encoder} {l : List Encoder} (h : e ∉ l) :
    countEncoder e l = 0 := by
  induction l with
  | nil => rfl
  | cons f fs ih =>
    have hne : f ≠ e := fun hfe => h (hfe ▸ List.mem_cons_self _ _)
    have : e ∉ fs := fun hm => h (List.mem_cons_of_mem _ hm)
    simp [countEncoder, hne, ih this]

theorem countEncoder_eq_one_of_nodup {e : Encoder} {l : List Encoder}
    (hnd : l.Nodup) (hm : e ∈ l) : countEncoder e l = 1 := by
  induction l with
  | nil => simp at hm
  | cons f fs ih =>
    rcases List.mem_cons.mp hm with h | h
    · have : e ∉ fs := by
        intro hmem
        exact (List.nodup_cons.mp hnd).1 (h ▸ hmem)
      simp [countEncoder, h.symm, countEncoder_eq_zero_of_not_mem this]
    · have hne : f ≠ e := by
        intro hfe
        exact (List.nodup_cons.mp hnd).1 (hfe ▸ h)
      simp [countEncoder, hne, ih (List.nodup_cons.mp hnd).2 h]

theorem firstBitRateFailure_eq_none_iff (rate : Nat) (l : List Encoder) :
    firstBitRateFailure rate l = none ↔ ∀ e ∈ l, setBitRateOk e rate = true := by
  induction l with
  | nil => simp [firstBitRateFailure]
  | cons f fs ih =>
    by_cases h : setBitRateOk f rate = true
    · simp [firstBitRateFailure, h, ih]
    · simp [firstBitRateFailure, h]

theorem findEncoder_some {suffix : String} {l : List Encoder} {e : Encoder}
    (h : findEncoder suffix l = some e) : e ∈ l ∧ e.suffix = suffix := by
  induction l with
  | nil => simp [findEncoder] at h
  | cons f fs ih =>
    by_cases hf : f.suffix == suffix
    · rw [findEncoder, if_pos hf] at h
      cases h
      exact ⟨List.mem_cons_self _ _, by simpa using hf⟩
    · rw [findEncoder, if_neg hf] at h
      obtain ⟨hm, hs⟩ := ih h
      exact ⟨List.mem_cons_of_mem _ hm, hs⟩

theorem findEncoder_isSome {suffix : String} {l : List Encoder} {e : Encoder}
    (hm : e ∈ l) (hs : e.suffix = suffix) : ∃ f, findEncoder suffix l = some f := by
  induction l with
  | nil => simp at hm
  | cons f fs ih =>
    by_cases hf : f.suffix == suffix
    · exact ⟨f, by rw [findEncoder, if_pos hf]⟩
    · rcases List.mem_cons.mp hm with h | h
      · exact absurd (by simpa using (h ▸ hs)) hf
      · obtain ⟨g, hg⟩ := ih h
        exact ⟨g, by rw [findEncoder, if_neg hf]; exact hg⟩

theorem findEncoder_eq_none {suffix : String} {l : List Encoder}
    (h : ∀ e ∈ l, e.suffix ≠ suffix) : findEncoder suffix l = none := by
  induction l with
  | nil => rfl
  | cons f fs ih =>
    have hf : ¬(f.suffix == suffix) = true := by
      simpa using h f (List.mem_cons_self _ _)
    rw [findEncoder, if_neg hf]
    exact ih (fun e he => h e (List.mem_cons_of_mem _ he))

theorem startsWithChars_iff (hay needle : List Char) :
    startsWithChars hay needle = true ↔ ∃ t, hay = needle ++ t := by
  induction needle generalizing hay with
  | nil => simp [startsWithChars]
  | cons p ps ih =>
    cases hay with
    | nil =>
      simp [startsWithChars]
    | cons a as =>
      simp only [startsWithChars, Bool.and_eq_true, decide_eq_true_eq, ih, List.cons_append,
        List.cons.injEq]
      constructor
      · rintro ⟨rfl, t, rfl⟩
        exact ⟨t, rfl, rfl⟩
      · rintro ⟨t, rfl, rfl⟩
        exact ⟨rfl, t, rfl⟩

theorem containsChars_iff (hay needle : List Char) :
    containsChars hay needle = true ↔ ∃ s t, hay = s ++ needle ++ t := by
  induction hay with
  | nil =>
    constructor
    · intro h
      have : needle = [] := by
        cases needle with
        | nil => rfl
        | cons _ _ => simp [containsChars, List.isEmpty] at h
      exact ⟨[], [], by simp [this]⟩
    · rintro ⟨s, t, hst⟩
      have h1 : s ++ needle ++ t = [] := hst.symm
      have h2 : s = [] ∧ needle = [] ∧ t = [] := by simpa using h1
      simp [containsChars, h2.2.1]
  | cons h hs ih =>
    simp only [containsChars, Bool.or_eq_true, startsWithChars_iff, ih]
    constructor
    · rintro (⟨t, ht⟩ | ⟨s, t, hst⟩)
      · exact ⟨[], t, by simp [ht]⟩
      · exact ⟨h :: s, t, by simp [hst]⟩
    · rintro ⟨s, t, hst⟩
      cases s with
      | nil =>
        exact Or.inl ⟨t, by simpa using hst⟩
      | cons x xs =>
        right
        refine ⟨xs, t, ?_⟩
        have := hst
        simp only [List.cons_append, List.cons.injEq] at this
        exact this.2

theorem strContains_iff (hay needle : String) :
    strContains hay needle = true ↔ ∃ s t, hay.data = s ++ needle.data ++ t := by
  exact containsChars_iff hay.data needle.data

theorem getCodecLoop_some_ok (codecs : List Codec) (u : String) :
    ∃ c, RadioLauncher.getCodecLoop (some u) codecs = Except.ok c := by
  induction codecs with
  | nil => exact ⟨mp3Codec, rfl⟩
  | cons c cs ih =>
    by_cases h : strEndsWith u c.suffix = true
    · exact ⟨c, by simp [RadioLauncher.getCodecLoop, h]⟩
    · obtain ⟨d, hd⟩ := ih
      exact ⟨d, by simp [RadioLauncher.getCodecLoop, h, hd]⟩

theorem firstBitRateFailure_some {rate : Nat} {l : List Encoder} {e : Encoder}
    (h : firstBitRateFailure rate l = some e) : e ∈ l ∧ setBitRateOk e rate = false := by
  induction l with
  | nil => simp [firstBitRateFailure] at h
  | cons f fs ih =>
    by_cases hf : setBitRateOk f rate = true
    · rw [firstBitRateFailure, if_pos hf] at h
      obtain ⟨hm, hr⟩ := ih h
      exact ⟨List.mem_cons_of_mem _ hm, hr⟩
    · rw [firstBitRateFailure, if_neg hf] at h
      cases h
      exact ⟨List.mem_cons_self _ _, by simpa using hf⟩

theorem not_mem_validateEvents {ev : Event} (l : List Encoder)
    (h1 : ∀ e : Encoder, ev ≠ Event.validateEncoder e)
    (h2 : ∀ e : Encoder, ev ≠ Event.printEncoder e) :
    ev ∉ validateEvents l := by
  intro hm
  rcases validateEvents_mem hm with ⟨e, h | h⟩
  · exact h1 e h
  · exact h2 e h

/-! ## Claim C1 -/

/-- C1, as stated, is false on the code: with the encoder table containing
`mp3` (which supports bit rate 192) and `wav` (which has no configurable
bit rate), running startup with `--bit-rate 192` exits the process with
status 1 even though an encoder accepting the bit rate remains — the code
never excludes the rejecting encoder and continues; it terminates on the
first `UnsupportedBitrateException` (lines 126–143). -/
theorem bitrate_exclusion_counterexample :
    (startup
        { host := some "192.168.1.2", port := 8080, encoder := none, bitRate := some 192,
          filterDevice := none, rendererUrls := none, debug := false }
        { defaultIpv4 := none,
          supportedEncoders := [{ suffix := "mp3", bitRates := [192, 320] },
                                { suffix := "wav", bitRates := [] }],
          bindOk := true }).outcome = Outcome.exited 1
    ∧ List.filter (fun e => setBitRateOk e 192)
        [{ suffix := "mp3", bitRates := [192, 320] }, { suffix := "wav", bitRates := [] }]
        = [{ suffix := "mp3", bitRates := [192, 320] }] := by
  decide

/-- C1 (amended): when a bit rate is supplied and startup has resolved a
host and survived the `--encoder` phase with encoder set `encs`, the
startup is fatal at the bit-rate step exactly when SOME encoder of `encs`
rejects the bit rate (not only when all do); and when every encoder
accepts it, the whole set `encs` — with no encoder excluded — goes on to
be validated. -/
theorem bitrate_rejection_is_fatal
    (opts : Options) (env : Env) (host : String) (encs : List Encoder) (rate : Nat)
    (hh : resolveHost opts env = some host)
    (hE : encoderPhase opts env.supportedEncoders = some encs)
    (hr : opts.bitRate = some rate) :
    (Event.logInvalidBitRate ∈ (startup opts env).events ↔
      ∃ e ∈ encs, setBitRateOk e rate = false)
    ∧ ((∀ e ∈ encs, setBitRateOk e rate = true) →
        ∀ e : Encoder, countValidate e (startup opts env).events = countEncoder e encs) := by
  have hphase : bitRatePhase opts encs = (firstBitRateFailure rate encs).isNone := by
    simp [bitRatePhase, hr]
  cases hfail : firstBitRateFailure rate encs with
  | some f =>
    have hB : bitRatePhase opts encs = false := by simp [hphase, hfail]
    have hstart : startup opts env =
        { events := [Event.logUsingHost host opts.port, Event.logInvalidBitRate],
          outcome := Outcome.exited 1,
          selfPulse := none, selfServerProcess := none, selfStreamServer := none } := by
      simp [startup, hh, hE, hB]
    obtain ⟨hm, hrej⟩ := firstBitRateFailure_some hfail
    constructor
    · simp only [hstart]
      constructor
      · intro _
        exact ⟨f, hm, hrej⟩
      · intro _
        simp
    · intro hall
      have : firstBitRateFailure rate encs = none :=
        (firstBitRateFailure_eq_none_iff rate encs).mpr hall
      rw [hfail] at this
      cases this
  | none =>
    have hB : bitRatePhase opts encs = true := by simp [hphase, hfail]
    have hall : ∀ e ∈ encs, setBitRateOk e rate = true :=
      (firstBitRateFailure_eq_none_iff rate encs).mp hfail
    have hcount : ∀ (tail : List Event), (∀ e : Encoder, countValidate e tail = 0) →
        ∀ e : Encoder,
          countValidate e ([Event.logUsingHost host opts.port, Event.logLoadedEncoders]
            ++ validateEvents encs ++ tail) = countEncoder e encs := by
      intro tail htail e
      rw [countValidate_append, countValidate_append, countValidate_validateEvents, htail]
      simp [countValidate]
    cases hbind : env.bindOk with
    | true =>
      have hstart : (startup opts env).events =
          [Event.logUsingHost host opts.port, Event.logLoadedEncoders]
            ++ validateEvents encs
            ++ [Event.createStreamServer host opts.port, Event.createPulseWatcher,
                Event.createRendererHolder (deviceFilterOf opts), Event.createSSDPListener] := by
        simp [startup, hh, hE, hB, hbind]
      constructor
      · rw [hstart]
        constructor
        · intro hmem
          rcases List.mem_append.mp hmem with hmem | hmem
          · rcases List.mem_append.mp hmem with hmem | hmem
            · simp at hmem
            · exact absurd hmem (not_mem_validateEvents encs (by intro e h; cases h) (by intro e h; cases h))
          · simp at hmem
        · rintro ⟨e, hm, hrej⟩
          exact absurd (hall e hm) (by simp [hrej])
      · intro _ e
        rw [hstart]
        exact hcount _ (fun e => by simp [countValidate]) e
    | false =>
      have hstart : (startup opts env).events =
          [Event.logUsingHost host opts.port, Event.logLoadedEncoders]
            ++ validateEvents encs ++ [Event.logBindFailure opts.port] := by
        simp [startup, hh, hE, hB, hbind]
      constructor
      · rw [hstart]
        constructor
        · intro hmem
          rcases List.mem_append.mp hmem with hmem | hmem
          · rcases List.mem_append.mp hmem with hmem | hmem
            · simp at hmem
            · exact absurd hmem (not_mem_validateEvents encs (by intro e h; cases h) (by intro e h; cases h))
          · simp at hmem
        · rintro ⟨e, hm, hrej⟩
          exact absurd (hall e hm) (by simp [hrej])
      · intro _ e
        rw [hstart]
        exact hcount _ (fun e => by simp [countValidate]) e

/-- Witness for the amended C1 at a concrete input: both encoders accept
bit rate 192, the bit-rate step is not fatal, and both encoders are still
validated. -/
theorem bitrate_rejection_is_fatal_witness :
    resolveHost
        { host := some "10.0.0.7", port := 8080, encoder := none, bitRate := some 192,
          filterDevice := none, rendererUrls := none, debug := false }
        { defaultIpv4 := none,
          supportedEncoders := [{ suffix := "mp3", bitRates := [192] },
                                { suffix := "ogg", bitRates := [128, 192] }],
          bindOk := true } = some "10.0.0.7"
    ∧ ((Event.logInvalidBitRate ∈
          (startup
            { host := some "10.0.0.7", port := 8080, encoder := none, bitRate := some 192,
              filterDevice := none, rendererUrls := none, debug := false }
            { defaultIpv4 := none,
              supportedEncoders := [{ suffix := "mp3", bitRates := [192] },
                                    { suffix := "ogg", bitRates := [128, 192] }],
              bindOk := true }).events ↔
        ∃ e ∈ [Encoder.mk "mp3" [192], Encoder.mk "ogg" [128, 192]], setBitRateOk e 192 = false)
      ∧ ((∀ e ∈ [Encoder.mk "mp3" [192], Encoder.mk "ogg" [128, 192]], setBitRateOk e 192 = true) →
          ∀ e : Encoder,
            countValidate e
              (startup
                { host := some "10.0.0.7", port := 8080, encoder := none, bitRate := some 192,
                  filterDevice := none, rendererUrls := none, debug := false }
                { defaultIpv4 := none,
                  supportedEncoders := [{ suffix := "mp3", bitRates := [192] },
                                        { suffix := "ogg", bitRates := [128, 192] }],
                  bindOk := true }).events
              = countEncoder e [Encoder.mk "mp3" [192], Encoder.mk "ogg" [128, 192]])) :=
  ⟨by decide,
    bitrate_rejection_is_fatal
      { host := some "10.0.0.7", port := 8080, encoder := none, bitRate := some 192,
        filterDevice := none, rendererUrls := none, debug := false }
      { defaultIpv4 := none,
        supportedEncoders := [{ suffix := "mp3", bitRates := [192] },
                              { suffix := "ogg", bitRates := [128, 192] }],
        bindOk := true }
      "10.0.0.7" [Encoder.mk "mp3" [192], Encoder.mk "ogg" [128, 192]] 192
      (by decide) (by decide) rfl⟩

/-! ## Claim C2 -/

/-- C2: when the stream server cannot bind its socket (lines 154–162),
startup logs the bind-failure message, exits with status 1, and no
component that the code would construct or start after the bind — the
pulse watcher, the renderer holder, the SSDP listener, the three worker
processes, URL registration or discovery — appears in the trace. -/
theorem bind_failure_is_fatal
    (opts : Options) (env : Env) (host : String) (encs : List Encoder)
    (hh : resolveHost opts env = some host)
    (hE : encoderPhase opts env.supportedEncoders = some encs)
    (hB : bitRatePhase opts encs = true)
    (hbind : env.bindOk = false) :
    (startup opts env).outcome = Outcome.exited 1
    ∧ Event.logBindFailure opts.port ∈ (startup opts env).events
    ∧ ∀ ev ∈ (startup opts env).events, startsComponentAfterBind ev = false := by
  have hstart : startup opts env =
      { events := [Event.logUsingHost host opts.port, Event.logLoadedEncoders]
          ++ validateEvents encs ++ [Event.logBindFailure opts.port],
        outcome := Outcome.exited 1,
        selfPulse := none, selfServerProcess := none, selfStreamServer := none } := by
    simp [startup, hh, hE, hB, hbind]
  refine ⟨by rw [hstart], by rw [hstart]; simp, ?_⟩
  rw [hstart]
  intro ev hmem
  rcases List.mem_append.mp hmem with hmem | hmem
  · rcases List.mem_append.mp hmem with hmem | hmem
    · rcases List.mem_cons.mp hmem with h | h
      · rw [h]; rfl
      · rw [List.mem_singleton.mp h]; rfl
    · rcases validateEvents_mem hmem with ⟨e, h | h⟩ <;> rw [h] <;> rfl
  · rw [List.mem_singleton.mp hmem]; rfl

/-- Witness for C2 at a concrete input: the bind fails, startup exits with
status 1 after logging the bind failure, and no post-bind component event
occurs. -/
theorem bind_failure_is_fatal_witness :
    resolveHost
        { host := some "10.0.0.7", port := 8080, encoder := none, bitRate := none,
          filterDevice := none, rendererUrls := none, debug := false }
        { defaultIpv4 := none, supportedEncoders := [{ suffix := "mp3", bitRates := [192] }],
          bindOk := false } = some "10.0.0.7"
    ∧ ((startup
          { host := some "10.0.0.7", port := 8080, encoder := none, bitRate := none,
            filterDevice := none, rendererUrls := none, debug := false }
          { defaultIpv4 := none, supportedEncoders := [{ suffix := "mp3", bitRates := [192] }],
            bindOk := false }).outcome = Outcome.exited 1
      ∧ Event.logBindFailure 8080 ∈
          (startup
            { host := some "10.0.0.7", port := 8080, encoder := none, bitRate := none,
              filterDevice := none, rendererUrls := none, debug := false }
            { defaultIpv4 := none, supportedEncoders := [{ suffix := "mp3", bitRates := [192] }],
              bindOk := false }).events
      ∧ ∀ ev ∈ (startup
            { host := some "10.0.0.7", port := 8080, encoder := none, bitRate := none,
              filterDevice := none, rendererUrls := none, debug := false }
            { defaultIpv4 := none, supportedEncoders := [{ suffix := "mp3", bitRates := [192] }],
              bindOk := false }).events, startsComponentAfterBind ev = false) :=
  ⟨by decide,
    bind_failure_is_fatal
      { host := some "10.0.0.7", port := 8080, encoder := none, bitRate := none,
        filterDevice := none, rendererUrls := none, debug := false }
      { defaultIpv4 := none, supportedEncoders := [{ suffix := "mp3", bitRates := [192] }],
        bindOk := false }
      "10.0.0.7" [{ suffix := "mp3", bitRates := [192] }]
      (by decide) (by decide) (by decide) rfl⟩

/-! ## Claims C3 and C4 -/

/-- C3 (code behaviour at every input): whatever the options and
environment, the startup sequence never registers renderer URLs and never
runs the active discovery search, and it never reaches the running state of
lines 177–195 — every run either `sys.exit(1)`s earlier or dies at line 174
with the `AttributeError` from `self.pulse.run` (`self.pulse` is never
assigned; line 165 binds a local `pulse` instead). -/
theorem url_branch_and_discovery_unreachable (opts : Options) (env : Env) :
    (∀ locs : List String, Event.addRenderersByUrl locs ∉ (startup opts env).events)
    ∧ Event.discoverSearch ∉ (startup opts env).events
    ∧ (startup opts env).outcome ≠ Outcome.running := by
  have hval1 : ∀ (l : List Encoder) (locs : List String),
      Event.addRenderersByUrl locs ∉ validateEvents l := by
    intro l locs
    exact not_mem_validateEvents l (by intro e h; cases h) (by intro e h; cases h)
  have hval2 : ∀ l : List Encoder, Event.discoverSearch ∉ validateEvents l := by
    intro l
    exact not_mem_validateEvents l (by intro e h; cases h) (by intro e h; cases h)
  unfold startup
  cases hres : resolveHost opts env with
  | none => simp
  | some host =>
    cases hE : encoderPhase opts env.supportedEncoders with
    | none => simp
    | some encs =>
      cases hB : bitRatePhase opts encs with
      | false => simp [hB]
      | true =>
        cases hbind : env.bindOk with
        | false =>
          simp only [hB, hbind, Bool.false_eq_true, reduceIte]
          refine ⟨fun locs => ?_, ?_, by simp⟩
          · intro hmem
            simp at hmem
            exact hval1 encs locs hmem
          · intro hmem
            simp at hmem
            exact hval2 encs hmem
        | true =>
          simp only [hB, hbind, reduceIte]
          refine ⟨fun locs => ?_, ?_, by simp⟩
          · intro hmem
            simp at hmem
            exact hval1 encs locs hmem
          · intro hmem
            simp at hmem
            exact hval2 encs hmem

/-- C4 (code behaviour at every input): whichever way startup ends, the
attributes `self.pulse` and `self.server_process` are still `None` (startup
binds the locals `pulse` and `server_process` instead), so the `shutdown`
handler — besides never being installed, since startup dies at line 174
before `signal.signal` on lines 190–191 — would print and `sys.exit(1)`
without cleaning up the pulse watcher or closing the stream server. -/
theorem shutdown_performs_no_cleanup (opts : Options) (env : Env) :
    shutdown (startup opts env).selfPulse (startup opts env).selfServerProcess
      = [ShutdownEvent.printShuttingDown, ShutdownEvent.sysExit 1]
    ∧ ShutdownEvent.pulseCleanup ∉
        shutdown (startup opts env).selfPulse (startup opts env).selfServerProcess
    ∧ ShutdownEvent.serverClose ∉
        shutdown (startup opts env).selfPulse (startup opts env).selfServerProcess
    ∧ Event.registerSignalHandlers ∉ (startup opts env).events := by
  have hpulse : (startup opts env).selfPulse = none := by
    unfold startup
    cases resolveHost opts env with
    | none => rfl
    | some host =>
      cases encoderPhase opts env.supportedEncoders with
      | none => rfl
      | some encs =>
        cases hB : bitRatePhase opts encs <;> cases hbind : env.bindOk <;> simp [hB, hbind]
  have hproc : (startup opts env).selfServerProcess = none := by
    unfold startup
    cases resolveHost opts env with
    | none => rfl
    | some host =>
      cases encoderPhase opts env.supportedEncoders with
      | none => rfl
      | some encs =>
        cases hB : bitRatePhase opts encs <;> cases hbind : env.bindOk <;> simp [hB, hbind]
  have hreg : Event.registerSignalHandlers ∉ (startup opts env).events := by
    have hval : ∀ l : List Encoder, Event.registerSignalHandlers ∉ validateEvents l := by
      intro l
      exact not_mem_validateEvents l (by intro e h; cases h) (by intro e h; cases h)
    unfold startup
    cases resolveHost opts env with
    | none => simp
    | some host =>
      cases encoderPhase opts env.supportedEncoders with
      | none => simp
      | some encs =>
        cases hB : bitRatePhase opts encs with
        | false => simp [hB]
        | true =>
          cases hbind : env.bindOk with
          | false =>
            simp only [hB, hbind, Bool.false_eq_true, reduceIte]
            intro hmem
            simp at hmem
            exact hval encs hmem
          | true =>
            simp only [hB, hbind, reduceIte]
            intro hmem
            simp at hmem
            exact hval encs hmem
  rw [hpulse, hproc]
  exact ⟨rfl, by decide, by decide, hreg⟩

/-! ## Claim C6 -/

/-- C6: on any startup run that survives its configuration phases and the
stream-server bind, the event trace splits into a prefix containing no
stream-server or bridge activity and a suffix containing no validation: the
prefix validates each encoder of the remaining set exactly as often as it
occurs there (exactly once, when the set has no duplicates), so every
encoder is validated before any stream or bridge activity begins. -/
theorem encoders_validated_before_stream_activity
    (opts : Options) (env : Env) (host : String) (encs : List Encoder)
    (hh : resolveHost opts env = some host)
    (hE : encoderPhase opts env.supportedEncoders = some encs)
    (hB : bitRatePhase opts encs = true)
    (hbind : env.bindOk = true) :
    ∃ pre post,
      (startup opts env).events = pre ++ post
      ∧ (∀ ev ∈ pre, streamOrBridgeActivity ev = false)
      ∧ (∀ e : Encoder, countValidate e pre = countEncoder e encs)
      ∧ (∀ e : Encoder, countValidate e post = 0)
      ∧ (encs.Nodup → ∀ e ∈ encs, countValidate e pre = 1) := by
  refine ⟨[Event.logUsingHost host opts.port, Event.logLoadedEncoders] ++ validateEvents encs,
      [Event.createStreamServer host opts.port, Event.createPulseWatcher,
       Event.createRendererHolder (deviceFilterOf opts), Event.createSSDPListener],
      ?_, ?_, ?_, ?_, ?_⟩
  · simp [startup, hh, hE, hB, hbind]
  · intro ev hmem
    rcases List.mem_append.mp hmem with hmem | hmem
    · rcases List.mem_cons.mp hmem with h | h
      · rw [h]; rfl
      · rw [List.mem_singleton.mp h]; rfl
    · rcases validateEvents_mem hmem with ⟨e, h | h⟩ <;> rw [h] <;> rfl
  · intro e
    rw [countValidate_append, countValidate_validateEvents]
    simp [countValidate]
  · intro e
    simp [countValidate]
  · intro hnd e hm
    rw [countValidate_append, countValidate_validateEvents]
    simp [countValidate, countEncoder_eq_one_of_nodup hnd hm]

/-- Witness for C6 at a concrete input (two distinct encoders, successful
bind). -/
theorem encoders_validated_before_stream_activity_witness :
    bitRatePhase
        { host := some "10.0.0.7", port := 8080, encoder := none, bitRate := none,
          filterDevice := none, rendererUrls := none, debug := false }
        [Encoder.mk "mp3" [192], Encoder.mk "ogg" [128]] = true
    ∧ ∃ pre post,
        (startup
          { host := some "10.0.0.7", port := 8080, encoder := none, bitRate := none,
            filterDevice := none, rendererUrls := none, debug := false }
          { defaultIpv4 := none,
            supportedEncoders := [Encoder.mk "mp3" [192], Encoder.mk "ogg" [128]],
            bindOk := true }).events = pre ++ post
        ∧ (∀ ev ∈ pre, streamOrBridgeActivity ev = false)
        ∧ (∀ e : Encoder, countValidate e pre = countEncoder e [Encoder.mk "mp3" [192], Encoder.mk "ogg" [128]])
        ∧ (∀ e : Encoder, countValidate e post = 0)
        ∧ ([Encoder.mk "mp3" [192], Encoder.mk "ogg" [128]].Nodup →
            ∀ e ∈ [Encoder.mk "mp3" [192], Encoder.mk "ogg" [128]], countValidate e pre = 1) :=
  ⟨by decide,
    encoders_validated_before_stream_activity
      { host := some "10.0.0.7", port := 8080, encoder := none, bitRate := none,
        filterDevice := none, rendererUrls := none, debug := false }
      { defaultIpv4 := none,
        supportedEncoders := [Encoder.mk "mp3" [192], Encoder.mk "ogg" [128]],
        bindOk := true }
      "10.0.0.7" [Encoder.mk "mp3" [192], Encoder.mk "ogg" [128]]
      (by decide) (by decide) (by decide) rfl⟩

/-! ## Claim C7 -/

/-- C7: a device name is accepted exactly when no (truthy) `--filter-device`
option is configured, or some comma-separated field of the option occurs as
a contiguous (case-sensitive) substring of the display name; and a rejected
device is not among the registered devices. -/
theorem device_filter_acceptance (opts : Options) (name : String) (names : List String) :
    (deviceAccepted opts name = true ↔
      (truthy opts.filterDevice = false
        ∨ ∃ sub ∈ splitStr (opts.filterDevice.getD "") ',',
            ∃ s t, name.data = s ++ sub.data ++ t))
    ∧ (deviceAccepted opts name = false →
        name ∉ registerDiscovered (deviceFilterOf opts) names) := by
  constructor
  · unfold deviceAccepted deviceFilterOf nameMatchesFilter
    by_cases hf : truthy opts.filterDevice = true
    · simp only [hf, if_true]
      constructor
      · intro h
        obtain ⟨sub, hsub, hc⟩ := List.any_eq_true.mp h
        exact Or.inr ⟨sub, hsub, (strContains_iff name sub).mp hc⟩
      · rintro (h | ⟨sub, hsub, hst⟩)
        · simp at h
        · exact List.any_eq_true.mpr ⟨sub, hsub, (strContains_iff name sub).mpr hst⟩
    · have hf' : truthy opts.filterDevice = false := by
        cases h : truthy opts.filterDevice
        · rfl
        · exact absurd h hf
      simp [hf']
  · intro hrej hmem
    have : nameMatchesFilter (deviceFilterOf opts) name = true :=
      (List.mem_filter.mp hmem).2
    rw [deviceAccepted] at hrej
    rw [this] at hrej
    cases hrej

/-- Witness for C7: Scenario A of the spec — filter `Kitchen`, devices
`Kitchen Speaker` and `Office Speaker`; the former is accepted, the latter
is rejected and not registered. -/
theorem device_filter_acceptance_witness :
    deviceAccepted
        { host := none, port := 8080, encoder := none, bitRate := none,
          filterDevice := some "Kitchen", rendererUrls := none, debug := false }
        "Office Speaker" = false
    ∧ "Office Speaker" ∉
        registerDiscovered
          (deviceFilterOf
            { host := none, port := 8080, encoder := none, bitRate := none,
              filterDevice := some "Kitchen", rendererUrls := none, debug := false })
          ["Kitchen Speaker", "Office Speaker"]
    ∧ deviceAccepted
        { host := none, port := 8080, encoder := none, bitRate := none,
          filterDevice := some "Kitchen", rendererUrls := none, debug := false }
        "Kitchen Speaker" = true :=
  ⟨by decide,
    (device_filter_acceptance
      { host := none, port := 8080, encoder := none, bitRate := none,
        filterDevice := some "Kitchen", rendererUrls := none, debug := false }
      "Office Speaker" ["Kitchen Speaker", "Office Speaker"]).2 (by decide),
    by decide⟩

/-! ## Claim C8 -/

/-- C8: with the five-encoder table of the program (suffixes `mp3`, `ogg`,
`flac`, `wav`, `opus`) and a non-empty `--encoder` option, either some
encoder has the requested suffix — then the supported set is reduced to
exactly that encoder and the unknown-encoder exit is not taken — or no
encoder has it, and startup exits with status 1 after logging the
unknown-encoder error. -/
theorem fixed_encoder_selection
    (opts : Options) (env : Env) (host : String) (suffix : String)
    (hh : resolveHost opts env = some host)
    (hs : opts.encoder = some suffix)
    (hne : suffix ≠ "")
    (htable : env.supportedEncoders.map Encoder.suffix = ["mp3", "ogg", "flac", "wav", "opus"]) :
    ((∃ e ∈ env.supportedEncoders, e.suffix = suffix) →
      ∃ e ∈ env.supportedEncoders, e.suffix = suffix
        ∧ encoderPhase opts env.supportedEncoders = some [e]
        ∧ Event.logUnknownEncoder ∉ (startup opts env).events)
    ∧ ((∀ e ∈ env.supportedEncoders, e.suffix ≠ suffix) →
        (startup opts env).outcome = Outcome.exited 1
        ∧ Event.logUnknownEncoder ∈ (startup opts env).events) := by
  have htruthy : truthy opts.encoder = true := by
    rw [hs]
    simpa [truthy] using hne
  have hget : opts.encoder.getD "" = suffix := by rw [hs]; rfl
  constructor
  · rintro ⟨e, hm, hsuf⟩
    obtain ⟨f, hf⟩ := findEncoder_isSome hm hsuf
    obtain ⟨hfm, hfs⟩ := findEncoder_some hf
    have hphase : encoderPhase opts env.supportedEncoders = some [f] := by
      simp [encoderPhase, htruthy, hget, reduceEncoders, hf]
    refine ⟨f, hfm, hfs, hphase, ?_⟩
    have hval : Event.logUnknownEncoder ∉ validateEvents [f] :=
      not_mem_validateEvents [f] (by intro x h; cases h) (by intro x h; cases h)
    unfold startup
    rw [hh, hphase]
    cases hB : bitRatePhase opts [f] with
    | false => simp [hB]
    | true =>
      cases hbind : env.bindOk with
      | false =>
        simp only [hB, hbind, Bool.false_eq_true, reduceIte]
        intro hmem
        simp at hmem
        exact hval hmem
      | true =>
        simp only [hB, hbind, reduceIte]
        intro hmem
        simp at hmem
        exact hval hmem
  · intro hnone
    have hfind : findEncoder suffix env.supportedEncoders = none :=
      findEncoder_eq_none hnone
    have hlen : env.supportedEncoders.length = 5 := by
      have := congrArg List.length htable
      simpa using this
    have hphase : encoderPhase opts env.supportedEncoders = none := by
      simp [encoderPhase, htruthy, hget, reduceEncoders, hfind, hlen]
    unfold startup
    rw [hh, hphase]
    exact ⟨rfl, by simp⟩

/-- Witness for C8: the real encoder table with `--encoder ogg` selects the
`ogg` encoder. -/
theorem fixed_encoder_selection_witness :
    (∃ e ∈ [Encoder.mk "mp3" [192], Encoder.mk "ogg" [128], Encoder.mk "flac" [],
            Encoder.mk "wav" [], Encoder.mk "opus" [96]], e.suffix = "ogg")
    ∧ ((∃ e ∈ [Encoder.mk "mp3" [192], Encoder.mk "ogg" [128], Encoder.mk "flac" [],
              Encoder.mk "wav" [], Encoder.mk "opus" [96]], e.suffix = "ogg") →
        ∃ e ∈ [Encoder.mk "mp3" [192], Encoder.mk "ogg" [128], Encoder.mk "flac" [],
              Encoder.mk "wav" [], Encoder.mk "opus" [96]], e.suffix = "ogg"
          ∧ encoderPhase
              { host := some "10.0.0.7", port := 8080, encoder := some "ogg", bitRate := none,
                filterDevice := none, rendererUrls := none, debug := false }
              [Encoder.mk "mp3" [192], Encoder.mk "ogg" [128], Encoder.mk "flac" [],
               Encoder.mk "wav" [], Encoder.mk "opus" [96]] = some [e]
          ∧ Event.logUnknownEncoder ∉
              (startup
                { host := some "10.0.0.7", port := 8080, encoder := some "ogg", bitRate := none,
                  filterDevice := none, rendererUrls := none, debug := false }
                { defaultIpv4 := none,
                  supportedEncoders := [Encoder.mk "mp3" [192], Encoder.mk "ogg" [128],
                    Encoder.mk "flac" [], Encoder.mk "wav" [], Encoder.mk "opus" [96]],
                  bindOk := true }).events) :=
  ⟨by decide,
    (fixed_encoder_selection
      { host := some "10.0.0.7", port := 8080, encoder := some "ogg", bitRate := none,
        filterDevice := none, rendererUrls := none, debug := false }
      { defaultIpv4 := none,
        supportedEncoders := [Encoder.mk "mp3" [192], Encoder.mk "ogg" [128],
          Encoder.mk "flac" [], Encoder.mk "wav" [], Encoder.mk "opus" [96]],
        bindOk := true }
      "10.0.0.7" "ogg" (by decide) rfl (by decide) (by decide)).1⟩

/-! ## Claim C5 -/

/-- C5: for any device list, result-code functions and device family
(flavour), once `_get_device` finds a device, `stop` logs the acknowledged
message exactly when the device's result code is 200 and the failure
message for every other code, and `play` (on a non-playlist URL) does the
same with the code returned by the device's `play` — the 200 test is the
single uniform criterion. -/
theorem play_stop_acknowledged_iff_200
    (devices : List RDevice) (codecs : List Codec) (fetch : String → String)
    (stopCode : RDevice → Int) (playCode : RDevice → Option String → Codec → Int)
    (name : String) (flavour : Option String) (url : String) (d : RDevice)
    (hd : RadioLauncher.getDevice name flavour devices = some d)
    (hm3u : strEndsWith (lowerStr url) ".m3u" = false) :
    (RadioLauncher.stop devices stopCode name flavour =
        if stopCode d = 200 then [RLog.instructedToStop d.label]
        else [RLog.failedToStop d.label (stopCode d)])
    ∧ ∃ codec : Codec, RadioLauncher.getCodecLoop (some url) codecs = Except.ok codec
        ∧ RadioLauncher.play devices codecs fetch playCode url name flavour =
            Except.ok (if playCode d (some url) codec = 200 then [RLog.instructedToPlay d.label]
              else [RLog.failedToPlay d.label (playCode d (some url) codec)]) := by
  constructor
  · simp [RadioLauncher.stop, hd]
  · obtain ⟨c, hc⟩ := getCodecLoop_some_ok codecs url
    have harg : RadioLauncher.playCodecArg fetch url = some url := by
      simp [RadioLauncher.playCodecArg, hm3u]
    refine ⟨c, hc, ?_⟩
    simp only [RadioLauncher.play, harg, hc, hd]
    split <;> rfl

/-- Witness for C5 at a concrete input: one DLNA device, `stop`
acknowledged with code 200, `play` failing with code 500. -/
theorem play_stop_acknowledged_iff_200_witness :
    RadioLauncher.getDevice "Kueche" (some "DLNA") [RDevice.mk "Kueche" "DLNA" "Kueche (DLNA)"]
        = some (RDevice.mk "Kueche" "DLNA" "Kueche (DLNA)")
    ∧ ((RadioLauncher.stop [RDevice.mk "Kueche" "DLNA" "Kueche (DLNA)"] (fun _ => (200 : Int))
          "Kueche" (some "DLNA") =
        if (fun (_ : RDevice) => (200 : Int)) (RDevice.mk "Kueche" "DLNA" "Kueche (DLNA)") = 200
        then [RLog.instructedToStop (RDevice.mk "Kueche" "DLNA" "Kueche (DLNA)").label]
        else [RLog.failedToStop (RDevice.mk "Kueche" "DLNA" "Kueche (DLNA)").label
              ((fun (_ : RDevice) => (200 : Int)) (RDevice.mk "Kueche" "DLNA" "Kueche (DLNA)"))])
      ∧ ∃ codec : Codec,
          RadioLauncher.getCodecLoop (some "http://radio.example/stream.mp3") [Codec.mk "mp3"]
            = Except.ok codec
          ∧ RadioLauncher.play [RDevice.mk "Kueche" "DLNA" "Kueche (DLNA)"] [Codec.mk "mp3"]
              (fun _ => "") (fun _ _ _ => (500 : Int)) "http://radio.example/stream.mp3"
              "Kueche" (some "DLNA") =
            Except.ok
              (if (fun (_ : RDevice) (_ : Option String) (_ : Codec) => (500 : Int))
                    (RDevice.mk "Kueche" "DLNA" "Kueche (DLNA)")
                    (some "http://radio.example/stream.mp3") codec = 200
               then [RLog.instructedToPlay (RDevice.mk "Kueche" "DLNA" "Kueche (DLNA)").label]
               else [RLog.failedToPlay (RDevice.mk "Kueche" "DLNA" "Kueche (DLNA)").label
                      ((fun (_ : RDevice) (_ : Option String) (_ : Codec) => (500 : Int))
                        (RDevice.mk "Kueche" "DLNA" "Kueche (DLNA)")
                        (some "http://radio.example/stream.mp3") codec)])) :=
  ⟨by decide,
    play_stop_acknowledged_iff_200
      [RDevice.mk "Kueche" "DLNA" "Kueche (DLNA)"] [Codec.mk "mp3"]
      (fun _ => "") (fun _ => (200 : Int)) (fun _ _ _ => (500 : Int))
      "Kueche" (some "DLNA") "http://radio.example/stream.mp3"
      (RDevice.mk "Kueche" "DLNA" "Kueche (DLNA)") (by decide) (by decide)⟩

/-! ## Claim C9 -/

/-- C9: the radio launcher's codec lookup is total on URL strings — it
always returns some codec; when some codec of the table has a suffix the
URL ends with, it returns such a codec from the table, and otherwise it
returns the MP3 codec. -/
theorem radio_codec_lookup_total (codecs : List Codec) (url : String) :
    (∃ c, RadioLauncher.getCodecLoop (some url) codecs = Except.ok c)
    ∧ ((∃ c ∈ codecs, strEndsWith url c.suffix = true) →
        ∃ c ∈ codecs, RadioLauncher.getCodecLoop (some url) codecs = Except.ok c
          ∧ strEndsWith url c.suffix = true)
    ∧ ((∀ c ∈ codecs, strEndsWith url c.suffix = false) →
        RadioLauncher.getCodecLoop (some url) codecs = Except.ok mp3Codec) := by
  refine ⟨getCodecLoop_some_ok codecs url, ?_, ?_⟩
  · induction codecs with
    | nil =>
      rintro ⟨c, hc, _⟩
      simp at hc
    | cons c cs ih =>
      intro hex
      by_cases h : strEndsWith url c.suffix = true
      · exact ⟨c, List.mem_cons_self _ _, by simp [RadioLauncher.getCodecLoop, h], h⟩
      · obtain ⟨c2, hm, he⟩ := hex
        have hcs : ∃ x ∈ cs, strEndsWith url x.suffix = true := by
          rcases List.mem_cons.mp hm with hm2 | hm2
          · exact absurd (hm2 ▸ he) h
          · exact ⟨c2, hm2, he⟩
        obtain ⟨x, hx, hxe, hxs⟩ := ih hcs
        exact ⟨x, List.mem_cons_of_mem _ hx, by simp [RadioLauncher.getCodecLoop, h, hxe], hxs⟩
  · induction codecs with
    | nil => intro _; rfl
    | cons c cs ih =>
      intro hall
      have hc : strEndsWith url c.suffix = false := hall c (List.mem_cons_self _ _)
      have hstep : RadioLauncher.getCodecLoop (some url) (c :: cs)
          = RadioLauncher.getCodecLoop (some url) cs := by
        simp [RadioLauncher.getCodecLoop, hc]
      rw [hstep]
      exact ih (fun x hx => hall x (List.mem_cons_of_mem _ hx))

/-- Witness for C9: a matching suffix returns the table codec, a
non-matching URL falls back to MP3. -/
theorem radio_codec_lookup_total_witness :
    (∃ c ∈ [Codec.mk "ogg"],
        RadioLauncher.getCodecLoop (some "http://cast.example/stream.ogg") [Codec.mk "ogg"]
          = Except.ok c
        ∧ strEndsWith "http://cast.example/stream.ogg" c.suffix = true)
    ∧ RadioLauncher.getCodecLoop (some "http://cast.example/a.aac") [Codec.mk "ogg"]
        = Except.ok mp3Codec :=
  ⟨(radio_codec_lookup_total [Codec.mk "ogg"] "http://cast.example/stream.ogg").2.1 (by decide),
   (radio_codec_lookup_total [Codec.mk "ogg"] "http://cast.example/a.aac").2.2 (by decide)⟩

/-! ## Claim C10 -/

/-- C10: when `play` is called with a URL whose lower-cased form ends in
`.m3u` and the fetched playlist body has no line whose lower-cased form
starts with `http://`, the playlist resolution returns `None`, that `None`
is the value `play` passes to the codec lookup, and (for a non-empty codec
table) the lookup's `url.endswith` call raises — the error branch is
reached. -/
theorem m3u_without_http_line_reaches_error
    (devices : List RDevice) (codecs : List Codec) (fetch : String → String)
    (playCode : RDevice → Option String → Codec → Int) (url : String) (name : String)
    (flavour : Option String)
    (hm3u : strEndsWith (lowerStr url) ".m3u" = true)
    (hbody : ∀ line ∈ splitStr (fetch url) '\n', strStartsWith (lowerStr line) "http://" = false)
    (hcodecs : codecs ≠ []) :
    RadioLauncher.getPlaylistUrl fetch url = none
    ∧ RadioLauncher.playCodecArg fetch url = none
    ∧ RadioLauncher.play devices codecs fetch playCode url name flavour = Except.error () := by
  have hpl : RadioLauncher.getPlaylistUrl fetch url = none := by
    rw [RadioLauncher.getPlaylistUrl]
    apply List.find?_eq_none.mpr
    intro line hline
    simp [hbody line hline]
  have harg : RadioLauncher.playCodecArg fetch url = none := by
    simp [RadioLauncher.playCodecArg, hm3u, hpl]
  refine ⟨hpl, harg, ?_⟩
  obtain ⟨c, cs, rfl⟩ : ∃ c cs, codecs = c :: cs := by
    cases codecs with
    | nil => exact absurd rfl hcodecs
    | cons c cs => exact ⟨c, cs, rfl⟩
  simp [RadioLauncher.play, harg, RadioLauncher.getCodecLoop]

/-- Witness for C10: the WDR Einslive playlist URL with a body carrying no
`http://` line. -/
theorem m3u_without_http_line_reaches_error_witness :
    strEndsWith (lowerStr "http://www.wdr.de/wdrlive/media/einslive.m3u") ".m3u" = true
    ∧ (∀ line ∈ splitStr ((fun (_ : String) => "#EXTM3U\nTitle1 - Radio")
          "http://www.wdr.de/wdrlive/media/einslive.m3u") '\n',
        strStartsWith (lowerStr line) "http://" = false)
    ∧ (RadioLauncher.getPlaylistUrl (fun _ => "#EXTM3U\nTitle1 - Radio")
          "http://www.wdr.de/wdrlive/media/einslive.m3u" = none
      ∧ RadioLauncher.playCodecArg (fun _ => "#EXTM3U\nTitle1 - Radio")
          "http://www.wdr.de/wdrlive/media/einslive.m3u" = none
      ∧ RadioLauncher.play [] [Codec.mk "mp3"] (fun _ => "#EXTM3U\nTitle1 - Radio")
          (fun _ _ _ => (200 : Int)) "http://www.wdr.de/wdrlive/media/einslive.m3u"
          "Kueche" (some "DLNA") = Except.error ()) :=
  ⟨by decide, by decide,
    m3u_without_http_line_reaches_error [] [Codec.mk "mp3"]
      (fun _ => "#EXTM3U\nTitle1 - Radio") (fun _ _ _ => (200 : Int))
      "http://www.wdr.de/wdrlive/media/einslive.m3u" "Kueche" (some "DLNA")
      (by decide) (by decide) (by decide)⟩
